import Mathlib

/-!
Shallow embedding of the EVA event queue core (src/eva/eventqueue.py and
src/eva/exceptions.py), together with theorems checking the design
specification against that code.

Python OrderedDict values are modelled as association lists in insertion
order; Python exceptions are modelled by returning the mutated state
together with an Except value, so that mutations performed before a raise
survive the failing call, exactly as attribute mutation does in Python.
-/

set_option autoImplicit false

namespace EVA

/-! ### Ordered dictionary model (collections.OrderedDict) -/

/-- Membership test on an association list, as the Python `in` operator. -/
def odContains {α : Type} (m : List (String × α)) (k : String) : Bool :=
  m.any (fun p => p.1 == k)

/-- Python `d[k] = v`: replace the value at an existing key in place,
otherwise append the pair at the end. -/
def odInsert {α : Type} (m : List (String × α)) (k : String) (v : α) :
    List (String × α) :=
  if odContains m k then m.map (fun p => if p.1 == k then (k, v) else p)
  else m ++ [(k, v)]

/-- Python `del d[k]`, on an association list with unique keys. -/
def odErase {α : Type} (m : List (String × α)) (k : String) :
    List (String × α) :=
  m.filter (fun p => p.1 != k)

/-- Python `list(d.keys())`: keys in insertion order. -/
def odKeys {α : Type} (m : List (String × α)) : List String :=
  m.map Prod.fst

/-- Python `d.get(k)`: the value at the first occurrence of a key. -/
def odFind? {α : Type} (m : List (String × α)) (k : String) : Option α :=
  (m.find? (fun p => p.1 == k)).map Prod.snd

theorem beq_comm_str (a b : String) : (a == b) = (b == a) := by
  by_cases h : a = b
  · simp [h]
  · simp [beq_eq_false_iff_ne, h, Ne.symm h]

theorem odContains_eq_keys_contains {α : Type} (m : List (String × α))
    (k : String) : odContains m k = (odKeys m).contains k := by
  induction m with
  | nil => rfl
  | cons p rest ih =>
    simp only [odContains, List.any_cons, odKeys, List.map_cons,
      List.contains_cons]
    rw [beq_comm_str p.1 k]
    congr 1

theorem odKeys_odInsert {α : Type} (m : List (String × α)) (k : String)
    (v : α) :
    odKeys (odInsert m k v) =
      if odContains m k then odKeys m else odKeys m ++ [k] := by
  unfold odInsert
  split
  · simp only [odKeys, List.map_map]
    apply List.map_congr_left
    intro p _
    by_cases h : p.1 = k
    · simp [h]
    · simp [h]
  · simp [odKeys]

theorem odContains_odInsert_self {α : Type} (m : List (String × α))
    (k : String) (v : α) : odContains (odInsert m k v) k = true := by
  rw [odContains_eq_keys_contains, odKeys_odInsert]
  split
  · rename_i h
    rw [odContains_eq_keys_contains] at h
    exact h
  · simp

theorem odKeys_odErase {α : Type} (m : List (String × α)) (k : String) :
    odKeys (odErase m k) = (odKeys m).filter (fun x => x != k) := by
  induction m with
  | nil => rfl
  | cons p rest ih =>
    by_cases h : p.1 = k
    · simp [odErase, odKeys, List.filter_cons, h] at *
      exact ih
    · simp [odErase, odKeys, List.filter_cons, h] at *
      exact ih

theorem odContains_odErase_self {α : Type} (m : List (String × α))
    (k : String) : odContains (odErase m k) k = false := by
  simp only [odContains, odErase]
  rw [List.any_eq_false]
  intro x hx
  have hne := (List.mem_filter.mp hx).2
  simp only [bne_iff_ne, ne_eq] at hne
  simp [hne]

theorem map_pair_eta {α : Type} (m : List (String × α)) :
    m.map (fun p => (p.1, p.2)) = m := by
  induction m with
  | nil => rfl
  | cons p rest ih => simp [ih]

/-! ### External collaborators (eva.event, eva.job, adapters) -/

/-- Modelled from the spec: eva.event.Event is not under src; per the spec
data model an event is an opaque unique identifier plus a raw message
payload, immutable once created. -/
structure Event where
  id : String
  message : String
deriving DecidableEq

/-- Modelled from the spec: adapters are external collaborators identified
by a stable adapter-config identifier. -/
structure Adapter where
  config_id : String
deriving DecidableEq

/-- Modelled from the spec: eva.job.Job is not under src; a job exposes a
stable identifier, a mutable status, a reference to its producing adapter,
and opaque predicates started, finished, failed, all mutated externally. -/
structure Job where
  id : String
  status : String
  adapter : Adapter
  started : Bool
  finished : Bool
  failed : Bool
deriving DecidableEq

/-- Modelled from the spec: the fixed status enumeration eva.job.ALL_STATUSES
is not under src; the spec Glossary lists the lifecycle states queued,
started/running, finished, failed. -/
def ALL_STATUSES : List String := ["queued", "running", "finished", "failed"]

/-! ### Exception taxonomy (src/eva/exceptions.py and Python builtins) -/

/-- The error kinds the event queue core can raise: the repository
exceptions DuplicateEventException, ZooKeeperDataTooLargeException and the
generic ZooKeeper error, plus the Python built-in KeyError, RuntimeError,
AssertionError and NameError used by the source. -/
inductive EvaError where
  | DuplicateEventException (id : String)
  | ZooKeeperDataTooLargeException
  | ZooKeeperError
  | KeyError (key : String)
  | RuntimeError (msg : String)
  | AssertionError
  | NameError (name : String)
deriving DecidableEq

deriving instance DecidableEq for Except

/-! ### EventQueueItem (src/eva/eventqueue.py lines 17..128) -/

/-- EventQueueItem: one event together with the ordered mapping from job
identifier to job (src lines 27..37). -/
structure EventQueueItem where
  event : Event
  jobs : List (String × Job)
deriving DecidableEq

/-- `id()` (src lines 39..43): the wrapped event identifier. -/
def EventQueueItem.id (item : EventQueueItem) : String :=
  item.event.id

/-- `add_job(job)` (src lines 45..51): `self.jobs[job.id] = job`. -/
def EventQueueItem.add_job (item : EventQueueItem) (job : Job) :
    EventQueueItem :=
  { item with jobs := odInsert item.jobs job.id job }

/-- `remove_job(job_id)` (src lines 53..58): `del self.jobs[job_id]`,
raising KeyError when the key is absent. -/
def EventQueueItem.remove_job (item : EventQueueItem) (job_id : String) :
    Except EvaError EventQueueItem :=
  if odContains item.jobs job_id then
    .ok { item with jobs := odErase item.jobs job_id }
  else .error (.KeyError job_id)

/-- `empty()` (src lines 60..65). -/
def EventQueueItem.empty (item : EventQueueItem) : Bool :=
  item.jobs.length == 0

/-- `job_keys()` (src lines 67..71): `list(self.jobs.keys())`. -/
def EventQueueItem.job_keys (item : EventQueueItem) : List String :=
  odKeys item.jobs

/-- `failed_jobs()` (src lines 73..77). -/
def EventQueueItem.failed_jobs (item : EventQueueItem) : List Job :=
  ((item.jobs.map Prod.snd).filter (fun job => job.failed))

/-- The loop of `finished()` (src lines 90..93): iterate the jobs and
return False at the first unfinished one. -/
def finishedLoop : List Job → Bool
  | [] => true
  | job :: rest => if !job.finished then false else finishedLoop rest

/-- `finished()` (src lines 79..93): RuntimeError on an item with zero
jobs, otherwise the conjunction of the job finished predicates. -/
def EventQueueItem.finished (item : EventQueueItem) : Except EvaError Bool :=
  if item.jobs.length == 0 then
    .error (.RuntimeError "finished() should not be called on an EventQueueItem with zero jobs")
  else .ok (finishedLoop (item.jobs.map Prod.snd))

/-- The per-job record stored under the jobs key of a serialized item:
status and producing adapter configuration identifier (src lines 104..108). -/
structure SerializedJob where
  status : String
  adapter : String
deriving DecidableEq

/-- The shape `serialize()` returns (src lines 95..109). -/
structure SerializedItem where
  message : String
  job_keys : List String
  jobs : List (String × SerializedJob)
deriving DecidableEq

/-- `serialize()` (src lines 95..109): the raw message, the ordered job
keys, and a dictionary built by inserting one record per job in iteration
order. -/
def EventQueueItem.serialize (item : EventQueueItem) : SerializedItem :=
  { message := item.event.message
    job_keys := item.job_keys
    jobs := item.jobs.foldl
      (fun acc p => odInsert acc p.1
        { status := p.2.status, adapter := p.2.adapter.config_id }) [] }

/-! ### Storage interface (eva.zk and the kazoo client, per spec section 6) -/

/-- A value stored at a ZooKeeper path: the queue core only ever stores a
raw message string or a list of identifiers. -/
inductive ZkValue where
  | str (s : String)
  | list (l : List String)
deriving DecidableEq

/-- Modelled from the spec: the byte size the structured-write primitive
reports for a serialized value. -/
def ZkValue.size : ZkValue → Nat
  | .str s => s.length
  | .list l => (l.map String.length).sum

/-- Modelled from the spec: the item count the structured-write primitive
reports. -/
def ZkValue.count : ZkValue → Nat
  | .str _ => 1
  | .list l => l.length

/-- Modelled from the spec: the coordination-store client (eva.zk plus the
kazoo client are not under src). It exposes a base path, a maximum payload
size, a connectivity flag driving the transient failure mode, the values
stored per path, and the set of paths created by ensure_path. -/
structure ZooKeeper where
  EVA_BASE_PATH : String
  max_payload : Nat
  connected : Bool
  tree : List (String × ZkValue)
  ensured : List String
deriving DecidableEq

/-- Does the string s start with the string pre. -/
def strStarts (pre s : String) : Bool :=
  pre.data.isPrefixOf s.data

/-- Does the string s end with the string suf. -/
def strEnds (suf s : String) : Bool :=
  suf.data.isSuffixOf s.data

/-- os.path.join for two components. -/
def pathJoin (a b : String) : String :=
  if strStarts "/" b then b
  else if a = "" || strEnds "/" a then a ++ b
  else a ++ "/" ++ b

/-- Modelled from the spec: ensure_path is an idempotent create-if-absent,
failing only on a store connectivity error. -/
def ZooKeeper.ensure_path (zk : ZooKeeper) (path : String) :
    ZooKeeper × Except EvaError Unit :=
  if zk.connected = false then (zk, .error .ZooKeeperError)
  else ({ zk with ensured :=
            if zk.ensured.contains path then zk.ensured
            else zk.ensured ++ [path] }, .ok ())

/-- Modelled from the spec: eva.zk.store_serialized_data serializes a value
to a path and reports the pair of item count and byte size, failing with
ZooKeeperDataTooLargeException when the serialized size exceeds the store
maximum payload size, and with a generic ZooKeeper error when the store is
unavailable. -/
def ZooKeeper.store (zk : ZooKeeper) (path : String) (v : ZkValue) :
    ZooKeeper × Except EvaError (Nat × Nat) :=
  if zk.connected = false then (zk, .error .ZooKeeperError)
  else if zk.max_payload < v.size then
    (zk, .error .ZooKeeperDataTooLargeException)
  else ({ zk with tree := odInsert zk.tree path v }, .ok (v.count, v.size))

/-- Modelled from the spec: recursive deletion of a path and the whole
subtree below it, failing only on a store connectivity error. -/
def ZooKeeper.delete_recursive (zk : ZooKeeper) (path : String) :
    ZooKeeper × Except EvaError Unit :=
  if zk.connected = false then (zk, .error .ZooKeeperError)
  else
    let below := fun (p : String) => p == path || strStarts (path ++ "/") p
    ({ zk with
        tree := zk.tree.filter (fun pr => !below pr.1)
        ensured := zk.ensured.filter (fun p => !below p) }, .ok ())

/-! ### EventQueue (src/eva/eventqueue.py lines 131..338) -/

/-- EventQueue: the ordered mapping from event identifier to item, the base
ZooKeeper path, and the coordination-store client it writes through
(src lines 163..171). -/
structure EventQueue where
  items : List (String × EventQueueItem)
  zk_base_path : String
  zookeeper : ZooKeeper
deriving DecidableEq

/-- `init()` (src lines 163..171): empty item mapping, base path
EVA_BASE_PATH joined with the events component, ensure_path on it. -/
def EventQueue.init (zk : ZooKeeper) : EventQueue × Except EvaError Unit :=
  let base := pathJoin zk.EVA_BASE_PATH "events"
  match zk.ensure_path base with
  | (zk2, r) => ({ items := [], zk_base_path := base, zookeeper := zk2 }, r)

/-- `item_keys()` (src lines 245..251): the event identifiers in insertion
order. -/
def EventQueue.item_keys (q : EventQueue) : List String :=
  odKeys q.items

/-- Python exception propagation between two store-backed steps: a raised
error stops the sequence with the store state reached so far, a normal
result feeds the next step. -/
def tryStep {α β : Type} (r : ZooKeeper × Except EvaError α)
    (f : ZooKeeper → α → ZooKeeper × Except EvaError β) :
    ZooKeeper × Except EvaError β :=
  match r with
  | (zk, .error e) => (zk, .error e)
  | (zk, .ok a) => f zk a

@[simp]
theorem tryStep_error {α β : Type} (zk : ZooKeeper) (e : EvaError)
    (f : ZooKeeper → α → ZooKeeper × Except EvaError β) :
    tryStep (zk, .error e) f = (zk, .error e) := rfl

@[simp]
theorem tryStep_ok {α β : Type} (zk : ZooKeeper) (a : α)
    (f : ZooKeeper → α → ZooKeeper × Except EvaError β) :
    tryStep (zk, .ok a) f = f zk a := rfl

/-- `store_serialized_data(path, data, metric_base)` (src lines 312..326):
a write through eva.zk.store_serialized_data; the debug log line and the
statsd gauges have no effect on the modelled state. -/
def EventQueue.store_serialized_data (q : EventQueue) (path : String)
    (data : ZkValue) : ZooKeeper × Except EvaError Unit :=
  tryStep (q.zookeeper.store path data) (fun zk _ => (zk, .ok ()))

/-- `store_list()` (src lines 253..264): rewrite the event-identifier index
at the base path. -/
def EventQueue.store_list (q : EventQueue) : ZooKeeper × Except EvaError Unit :=
  q.store_serialized_data q.zk_base_path (.list q.item_keys)

/-- The loop of `store_item` over the serialized job records
(src lines 290..294): ensure the job path, store the adapter identifier,
store the status. -/
def storeJobRecords (zk : ZooKeeper) (jobs_path : String) :
    List (String × SerializedJob) → ZooKeeper × Except EvaError Unit
  | [] => (zk, .ok ())
  | (key, j) :: rest =>
    tryStep (zk.ensure_path (pathJoin jobs_path key)) (fun zk1 _ =>
      tryStep (zk1.store (pathJoin (pathJoin jobs_path key) "adapter")
          (.str j.adapter)) (fun zk2 _ =>
        tryStep (zk2.store (pathJoin (pathJoin jobs_path key) "status")
            (.str j.status)) (fun zk3 _ =>
          storeJobRecords zk3 jobs_path rest)))

/-- `store_item(item)` (src lines 266..295): assert membership, ensure the
item base path, write the message, the job-key list and one record per
job, then rewrite the global index. Only the store state changes. -/
def EventQueue.store_item (q : EventQueue) (item : EventQueueItem) :
    ZooKeeper × Except EvaError Unit :=
  if odContains q.items item.id = false then (q.zookeeper, .error .AssertionError)
  else
    tryStep (q.zookeeper.ensure_path (pathJoin q.zk_base_path item.id))
      (fun zk1 _ =>
        tryStep (zk1.store (pathJoin (pathJoin q.zk_base_path item.id) "message")
            (.str item.serialize.message)) (fun zk2 _ =>
          tryStep (zk2.store (pathJoin (pathJoin q.zk_base_path item.id) "jobs")
              (.list item.serialize.job_keys)) (fun zk3 _ =>
            tryStep (storeJobRecords zk3
                (pathJoin (pathJoin q.zk_base_path item.id) "jobs")
                item.serialize.jobs) (fun zk4 _ =>
              EventQueue.store_list { q with zookeeper := zk4 }))))

/-- `add_event(event)` (src lines 173..200): reject a duplicate identifier,
otherwise insert the fresh item into the mapping and then persist it; a
store failure propagates and the insertion stays in memory. -/
def EventQueue.add_event (q : EventQueue) (event : Event) :
    EventQueue × Except EvaError EventQueueItem :=
  let id := event.id
  if odContains q.items id then
    (q, .error (.DuplicateEventException id))
  else
    let item : EventQueueItem := { event := event, jobs := [] }
    let q2 : EventQueue := { q with items := odInsert q.items id item }
    match q2.store_item item with
    | (zk, .error e) => ({ q2 with zookeeper := zk }, .error e)
    | (zk, .ok _) => ({ q2 with zookeeper := zk }, .ok item)

/-- `adapter_active_job_count(adapter)` (src lines 202..217): the function
asserts isinstance on the undefined name event, so the NameError is raised
before the counting loop below it can run. -/
def EventQueue.adapter_active_job_count (q : EventQueue) (adapter : Adapter) :
    Except EvaError Nat :=
  (Except.error (EvaError.NameError "event")).bind (fun (_ : Unit) =>
    Except.ok ((q.items.map (fun p => p.2.jobs.map Prod.snd)).flatten.foldl
      (fun active job =>
        if job.adapter != adapter then active
        else if !job.started then active
        else active + 1) 0))

/-- The jobs the aggregate queries iterate over: for every item of the
queue in order, its jobs in order. -/
def EventQueue.all_jobs (q : EventQueue) : List Job :=
  (q.items.map (fun p => p.2.jobs.map Prod.snd)).flatten

/-- One `status_map[job.status] += 1` step of `status_count`
(src line 228): KeyError when the status is not a key of the map. -/
def bumpStatus (m : List (String × Nat)) (s : String) :
    Except EvaError (List (String × Nat)) :=
  if odContains m s then
    .ok (m.map (fun p => if p.1 == s then (p.1, p.2 + 1) else p))
  else .error (.KeyError s)

/-- The nested loops of `status_count` (src lines 226..228), one bump per
job, stopping at the first KeyError exactly as the Python loop would. -/
def statusLoop : List Job → List (String × Nat) →
    Except EvaError (List (String × Nat))
  | [], m => .ok m
  | j :: rest, m =>
    match bumpStatus m j.status with
    | .ok m2 => statusLoop rest m2
    | .error e => .error e

/-- `status_count()` (src lines 219..229): a zero-filled map over
ALL_STATUSES, then one increment per job of every item. -/
def EventQueue.status_count (q : EventQueue) :
    Except EvaError (List (String × Nat)) :=
  statusLoop q.all_jobs (ALL_STATUSES.map (fun s => (s, 0)))

/-- `delete_stored_item(item_id)` (src lines 297..310): assert membership,
recursively delete the item subtree, rewrite the index. -/
def EventQueue.delete_stored_item (q : EventQueue) (item_id : String) :
    ZooKeeper × Except EvaError Unit :=
  if odContains q.items item_id = false then
    (q.zookeeper, .error .AssertionError)
  else
    tryStep (q.zookeeper.delete_recursive (pathJoin q.zk_base_path item_id))
      (fun zk _ => EventQueue.store_list { q with zookeeper := zk })

/-- `remove_item(item)` (src lines 231..243): assert membership, delete the
item from the in-memory mapping, then call delete_stored_item with the
identifier. -/
def EventQueue.remove_item (q : EventQueue) (item : EventQueueItem) :
    EventQueue × Except EvaError Unit :=
  let id := item.id
  if odContains q.items id = false then (q, .error .AssertionError)
  else
    let q2 : EventQueue := { q with items := odErase q.items id }
    match q2.delete_stored_item id with
    | (zk, r) => ({ q2 with zookeeper := zk }, r)

/-! ### Sequences of job mutations on one item (for the ordering claims) -/

/-- One mutation of the job mapping of an item: an add_job call or a
remove_job call. -/
inductive JobOp where
  | add (job : Job)
  | remove (job_id : String)
deriving DecidableEq

/-- The job identifier an operation touches. -/
def opKey : JobOp → String
  | .add job => job.id
  | .remove job_id => job_id

/-- Run a sequence of job mutations the way Python executes them: a raised
KeyError stops the sequence and the mutations already applied survive. -/
def runJobOps (item : EventQueueItem) :
    List JobOp → EventQueueItem × Except EvaError Unit
  | [] => (item, .ok ())
  | .add job :: rest => runJobOps (item.add_job job) rest
  | .remove job_id :: rest =>
    match item.remove_job job_id with
    | .ok item2 => runJobOps item2 rest
    | .error e => (item, .error e)

/-- Modelled from the claim under test, read literally: the surviving
identifiers listed in the order of the FIRST add operation that ever
inserted them, ignoring intervening removals. -/
def firstInsertOrder (ops : List JobOp) (surviving : List String) :
    List String :=
  (ops.foldl (fun acc op =>
      match op with
      | .add job => if acc.contains job.id then acc else acc ++ [job.id]
      | .remove _ => acc) []).filter (fun k => surviving.contains k)

/-- Modelled from the amended claim: one step of the key order, where an
add of a fresh key appends it, an add of a present key keeps its position,
and a removal drops it (so a later re-add appends it anew). -/
def stepKeys (acc : List String) : JobOp → List String
  | .add job => if acc.contains job.id then acc else acc ++ [job.id]
  | .remove job_id => acc.filter (fun k => k != job_id)

/-- Modelled from the amended claim: the key order after a sequence of
operations starting from an item with no jobs. -/
def episodeOrder (ops : List JobOp) : List String :=
  ops.foldl stepKeys []

/-! ### Sequences of queue mutations (for the item ordering claim) -/

/-- One mutation of the queue item mapping: an add_event call or a
remove_item call. -/
inductive QueueOp where
  | add (event : Event)
  | remove (item : EventQueueItem)
deriving DecidableEq

/-- The event identifier a queue operation touches. -/
def qopKey : QueueOp → String
  | .add event => event.id
  | .remove item => item.id

/-- Run a sequence of queue mutations, keeping after each call the state
that call leaves behind whether or not it raised: a duplicate add_event
and a non-member remove_item leave the mapping as it was, a store failure
inside add_event leaves the fresh insertion in memory, and the in-memory
deletion of remove_item survives the AssertionError its broken
delete_stored_item call raises afterwards. -/
def runQueueOps (q : EventQueue) : List QueueOp → EventQueue
  | [] => q
  | .add event :: rest => runQueueOps (q.add_event event).1 rest
  | .remove item :: rest => runQueueOps (q.remove_item item).1 rest

/-- Modelled from the amended claim, at the queue level: an add_event of a
fresh identifier appends it, an add_event of a present identifier keeps
the mapping as it is, and a remove_item drops the identifier (so a later
re-add appends it anew). -/
def stepItemKeys (acc : List String) : QueueOp → List String
  | .add event => if acc.contains event.id then acc else acc ++ [event.id]
  | .remove item => acc.filter (fun k => k != item.id)

/-! ### Concrete scenarios used by the witnesses -/

/-- A healthy store: connected, generous payload limit, empty tree. -/
def zkTest : ZooKeeper :=
  { EVA_BASE_PATH := "/eva", max_payload := 1000, connected := true
    tree := [], ensured := [] }

/-- The queue right after construction against the healthy store. -/
def queueEmpty : EventQueue := (EventQueue.init zkTest).1

def eventOne : Event := { id := "e1", message := "m1" }

/-- The queue after one successful add_event of eventOne. -/
def queueOne : EventQueue := (queueEmpty.add_event eventOne).1

/-- A job with the given identifier and status, unstarted and unfinished,
produced by the adapter with configuration identifier a1. -/
def mkJob (id status : String) : Job :=
  { id := id, status := status, adapter := { config_id := "a1" }
    started := false, finished := false, failed := false }

/-- A queue whose jobs carry the statuses queued, queued, running, failed
of the specification example, spread over two items. -/
def queueStatuses : EventQueue :=
  { items := [("e1", { event := { id := "e1", message := "m1" }
                       jobs := [("j1", mkJob "j1" "queued"),
                                ("j2", mkJob "j2" "queued")] }),
              ("e2", { event := { id := "e2", message := "m2" }
                       jobs := [("j3", mkJob "j3" "running"),
                                ("j4", mkJob "j4" "failed")] })]
    zk_base_path := "/eva/events", zookeeper := zkTest }

/-- A queue holding one job whose status bogus is outside the fixed
enumeration. -/
def queueBogus : EventQueue :=
  { items := [("e1", { event := { id := "e1", message := "m1" }
                       jobs := [("jx", mkJob "jx" "bogus")] })]
    zk_base_path := "/eva/events", zookeeper := zkTest }

/-- A connected store whose maximum payload size is zero, so every
non-empty write fails with the payload-too-large error. -/
def zkSmall : ZooKeeper :=
  { EVA_BASE_PATH := "/eva", max_payload := 0, connected := true
    tree := [], ensured := [] }

/-- The queue constructed against the zero-capacity store. -/
def queueSmall : EventQueue := (EventQueue.init zkSmall).1

/-- An item with no jobs yet, for the ordering counterexample. -/
def itemBare : EventQueueItem :=
  { event := { id := "ce", message := "" }, jobs := [] }

/-- Add a, add b, remove a, add a again: the re-added key lands at the
end, behind b. -/
def reAddOps : List JobOp :=
  [.add (mkJob "a" "queued"), .add (mkJob "b" "queued"),
   .remove "a", .add (mkJob "a" "queued")]

/-! ### Theorems -/

/-- C1: on a queue whose item mapping already holds the event identifier,
add_event fails with the Duplicate-event error and returns the queue
unchanged, so the existing item, its job list and the whole item mapping
are exactly what they were before the call. -/
theorem add_event_duplicate_rejected (q : EventQueue) (e : Event)
    (h : odContains q.items e.id = true) :
    q.add_event e = (q, .error (.DuplicateEventException e.id)) := by
  unfold EventQueue.add_event
  simp [h]

/-- Witness for C1: the queue holding event e1 rejects a second event with
identifier e1 and is returned unchanged. -/
theorem add_event_duplicate_rejected_case :
    queueOne.add_event { id := "e1", message := "m2" } =
      (queueOne, .error (.DuplicateEventException "e1")) :=
  add_event_duplicate_rejected queueOne { id := "e1", message := "m2" }
    (by decide)

/-- C10: delete_stored_item called with an identifier absent from the
in-memory item mapping fails on its membership assertion and returns the
store untouched, so the recursive deletion is reachable only while the
identifier is still a member. -/
theorem delete_stored_item_requires_membership (q : EventQueue)
    (item_id : String) (h : odContains q.items item_id = false) :
    q.delete_stored_item item_id = (q.zookeeper, .error .AssertionError) := by
  unfold EventQueue.delete_stored_item
  simp [h]

/-- Witness for C10: deleting an identifier never added fails with
AssertionError and leaves the store state exactly as it was. -/
theorem delete_stored_item_requires_membership_case :
    queueEmpty.delete_stored_item "x" =
      (queueEmpty.zookeeper, .error .AssertionError) :=
  delete_stored_item_requires_membership queueEmpty "x" (by decide)

/-- C4: every call of adapter_active_job_count raises NameError, because
the isinstance assertion at the top of the function references the
undefined name event instead of its adapter parameter; the counting loop
below it is unreachable. -/
theorem adapter_active_job_count_raises (q : EventQueue) (a : Adapter) :
    q.adapter_active_job_count a = .error (.NameError "event") := rfl

theorem finishedLoop_eq_true_iff (l : List Job) :
    finishedLoop l = true ↔ ∀ j ∈ l, j.finished = true := by
  induction l with
  | nil => simp [finishedLoop]
  | cons j rest ih =>
    by_cases h : j.finished = true
    · simp [finishedLoop, h, ih]
    · simp only [Bool.not_eq_true] at h
      simp only [finishedLoop, h, Bool.not_false, if_true]
      constructor
      · intro hfalse; exact absurd hfalse (by simp)
      · intro hall
        have := hall j (by simp)
        rw [h] at this
        exact this

/-- C3: finished() fails with the RuntimeError precondition violation
exactly when the item has zero jobs, and on an item with at least one job
it returns true exactly when every attached job reports finished. -/
theorem item_finished_iff (item : EventQueueItem) :
    (item.finished = .error (.RuntimeError
        "finished() should not be called on an EventQueueItem with zero jobs")
      ↔ item.jobs = [])
    ∧ (item.jobs ≠ [] →
        (item.finished = .ok true ↔ ∀ p ∈ item.jobs, p.2.finished = true)) := by
  cases hj : item.jobs with
  | nil =>
    constructor
    · simp [EventQueueItem.finished, hj]
    · intro hne; exact absurd rfl hne
  | cons p rest =>
    constructor
    · simp [EventQueueItem.finished, hj]
    · intro _
      simp only [EventQueueItem.finished, hj, List.length_cons]
      rw [if_neg (by simp)]
      simp only [Except.ok.injEq]
      rw [finishedLoop_eq_true_iff, List.forall_mem_map]

/-- C2: the removal protocol is broken in the source. remove_item deletes
the identifier from the in-memory mapping first and only then calls
delete_stored_item, whose membership assertion (line 305) therefore always
fails: the call raises AssertionError, the persisted subtree of the event
is still stored, and the persisted event-identifier index still lists the
removed identifier. -/
theorem remove_item_leaves_subtree :
    (queueEmpty.add_event eventOne).2 = .ok { event := eventOne, jobs := [] }
    ∧ (queueOne.remove_item { event := eventOne, jobs := [] }).2 =
        .error .AssertionError
    ∧ (queueOne.remove_item { event := eventOne, jobs := [] }).1.items = []
    ∧ odFind? (queueOne.remove_item { event := eventOne, jobs := [] }).1.zookeeper.tree
        "/eva/events/e1/message" = some (.str "m1")
    ∧ odFind? (queueOne.remove_item { event := eventOne, jobs := [] }).1.zookeeper.tree
        "/eva/events" = some (.list ["e1"]) := by
  decide

theorem odContains_append {α : Type} (a b : List (String × α)) (k : String) :
    odContains (a ++ b) k = (odContains a k || odContains b k) := by
  simp [odContains, List.any_append]

theorem foldl_odInsert_eq_map (l : List (String × Job)) :
    ∀ (acc : List (String × SerializedJob)),
      (odKeys l).Nodup →
      (∀ k ∈ odKeys l, odContains acc k = false) →
      l.foldl (fun acc2 p => odInsert acc2 p.1
          { status := p.2.status, adapter := p.2.adapter.config_id }) acc
        = acc ++ l.map (fun p =>
            (p.1, { status := p.2.status, adapter := p.2.adapter.config_id })) := by
  induction l with
  | nil => intro acc _ _; simp
  | cons p rest ih =>
    intro acc hnd hdisj
    have hnd2 : p.1 ∉ odKeys rest ∧ (odKeys rest).Nodup := List.nodup_cons.mp hnd
    have hknotin : odContains acc p.1 = false :=
      hdisj p.1 (List.mem_cons_self _ _)
    have hstep : odInsert acc p.1
        { status := p.2.status, adapter := p.2.adapter.config_id }
        = acc ++ [(p.1, { status := p.2.status
                          adapter := p.2.adapter.config_id })] := by
      unfold odInsert
      rw [hknotin]
      simp
    simp only [List.foldl_cons, hstep]
    rw [ih _ hnd2.2 ?_]
    · simp
    · intro k hk
      have hne : p.1 ≠ k := fun he => hnd2.1 (he ▸ hk)
      rw [odContains_append, hdisj k (List.mem_cons_of_mem _ hk)]
      simp [odContains, beq_eq_false_iff_ne, hne]

/-- C6: serialize returns exactly the raw event message, the job
identifiers in insertion order, and one status and adapter-identifier
record per job identifier, in the same order. -/
theorem serialize_matches_shape (item : EventQueueItem)
    (h : (odKeys item.jobs).Nodup) :
    item.serialize =
      { message := item.event.message
        job_keys := odKeys item.jobs
        jobs := item.jobs.map (fun p =>
          (p.1, { status := p.2.status
                  adapter := p.2.adapter.config_id })) } := by
  unfold EventQueueItem.serialize
  rw [foldl_odInsert_eq_map item.jobs [] h (fun k _ => rfl)]
  rfl

theorem odKeys_bumpMap (m : List (String × Nat)) (s : String) :
    odKeys (m.map (fun p => if p.1 == s then (p.1, p.2 + 1) else p))
      = odKeys m := by
  simp only [odKeys, List.map_map]
  apply List.map_congr_left
  intro p _
  by_cases h : (p.1 == s) = true
  · simp [Function.comp, h]
  · simp [Function.comp, h]

theorem statusLoop_eq (js : List Job) :
    ∀ (m : List (String × Nat)),
      (∀ j ∈ js, odContains m j.status = true) →
      statusLoop js m
        = .ok (m.map (fun p =>
            (p.1, p.2 + (js.filter (fun j => j.status == p.1)).length))) := by
  induction js with
  | nil =>
    intro m _
    simp only [statusLoop, List.filter_nil, List.length_nil, Nat.add_zero]
    rw [map_pair_eta]
  | cons j rest ih =>
    intro m h
    have hm : odContains m j.status = true := h j (by simp)
    have hbump : bumpStatus m j.status
        = .ok (m.map (fun p => if p.1 == j.status then (p.1, p.2 + 1) else p)) := by
      unfold bumpStatus
      rw [hm]
      simp
    have hrest : ∀ j2 ∈ rest, odContains
        (m.map (fun p => if p.1 == j.status then (p.1, p.2 + 1) else p))
        j2.status = true := by
      intro j2 hj2
      rw [odContains_eq_keys_contains, odKeys_bumpMap,
        ← odContains_eq_keys_contains]
      exact h j2 (List.mem_cons_of_mem _ hj2)
    simp only [statusLoop]
    rw [hbump]
    show statusLoop rest _ = _
    rw [ih _ hrest]
    simp only [List.map_map, Except.ok.injEq]
    apply List.map_congr_left
    intro p _
    simp only [Function.comp]
    by_cases hb : (p.1 == j.status) = true
    · have hs : (j.status == p.1) = true := by
        rw [beq_comm_str]; exact hb
      simp only [hb, if_true, List.filter_cons, hs, List.length_cons]
      simp only [Prod.mk.injEq, true_and]
      omega
    · have hs : (j.status == p.1) = false := by
        rw [beq_comm_str]; exact Bool.of_not_eq_true hb
      simp only [hb, if_false, List.filter_cons, hs]
      simp

/-- The counts status_count returns when every job status is a member of
the fixed enumeration: the zero-filled map over ALL_STATUSES with one
increment per job of that status. -/
theorem status_count_eq (q : EventQueue)
    (h : ∀ j ∈ q.all_jobs, j.status ∈ ALL_STATUSES) :
    q.status_count = .ok (ALL_STATUSES.map (fun s =>
      (s, (q.all_jobs.filter (fun j => j.status == s)).length))) := by
  unfold EventQueue.status_count
  rw [statusLoop_eq q.all_jobs _ ?_]
  · simp only [List.map_map, Except.ok.injEq]
    apply List.map_congr_left
    intro s _
    simp [Function.comp]
  · intro j hj
    rw [odContains_eq_keys_contains]
    have hkeys : odKeys (ALL_STATUSES.map (fun s => (s, (0 : Nat))))
        = ALL_STATUSES := by
      simp only [odKeys, List.map_map]
      exact List.map_id ALL_STATUSES
    rw [hkeys]
    exact List.elem_eq_true_of_mem (h j hj)

/-- C5: when every job status is a member of the fixed enumeration,
status_count returns the mapping whose keys are exactly ALL_STATUSES in
order, zero-filled, with the value at each status equal to the number of
jobs of the queue holding that status. -/
theorem status_count_fixed_keys (q : EventQueue)
    (h : ∀ j ∈ q.all_jobs, j.status ∈ ALL_STATUSES) :
    q.status_count = .ok (ALL_STATUSES.map (fun s =>
      (s, (q.all_jobs.filter (fun j => j.status == s)).length))) :=
  status_count_eq q h

/-- Witness for C5: jobs with statuses queued, queued, running, failed
count to exactly the mapping of the specification example. -/
theorem status_count_fixed_keys_case :
    queueStatuses.status_count =
      .ok [("queued", 2), ("running", 1), ("finished", 0), ("failed", 1)] :=
  (status_count_fixed_keys queueStatuses (by decide)).trans (by decide)

/-- C9: status_count completes for every queue whose job statuses all lie
in the fixed enumeration, and the queue holding one job with the unknown
status bogus makes it fail with the missing-key error instead of
returning a mapping. -/
theorem status_count_total_iff_statuses_known :
    (∀ q : EventQueue, (∀ j ∈ q.all_jobs, j.status ∈ ALL_STATUSES) →
        ∃ m, q.status_count = .ok m)
    ∧ queueBogus.status_count = .error (.KeyError "bogus") := by
  constructor
  · intro q h
    exact ⟨_, status_count_eq q h⟩
  · decide

theorem runJobOps_keys (ops : List JobOp) :
    ∀ (item : EventQueueItem),
      (runJobOps item ops).2 = .ok () →
      (runJobOps item ops).1.job_keys = ops.foldl stepKeys item.job_keys := by
  induction ops with
  | nil => intro item _; rfl
  | cons op rest ih =>
    intro item hok
    cases op with
    | add job =>
      have hkeys : (item.add_job job).job_keys
          = stepKeys item.job_keys (.add job) := by
        unfold EventQueueItem.add_job EventQueueItem.job_keys stepKeys
        rw [odKeys_odInsert, odContains_eq_keys_contains]
      simp only [runJobOps] at hok ⊢
      rw [ih _ hok, hkeys]
      rfl
    | remove job_id =>
      by_cases hc : odContains item.jobs job_id = true
      · have hrem : item.remove_job job_id
            = .ok { item with jobs := odErase item.jobs job_id } := by
          unfold EventQueueItem.remove_job
          rw [if_pos hc]
        simp only [runJobOps, hrem] at hok ⊢
        rw [ih _ hok]
        have hkeys : ({ item with jobs := odErase item.jobs job_id }
            : EventQueueItem).job_keys = stepKeys item.job_keys (.remove job_id) := by
          unfold EventQueueItem.job_keys stepKeys
          exact odKeys_odErase _ _
        rw [hkeys]
        rfl
      · have hrem : item.remove_job job_id = .error (.KeyError job_id) := by
          unfold EventQueueItem.remove_job
          rw [if_neg hc]
        simp only [runJobOps, hrem] at hok
        simp at hok

theorem sublist_runJobOps (ops : List JobOp) :
    ∀ (item : EventQueueItem) (k1 k2 : String),
      (∀ op ∈ ops, opKey op ≠ k1 ∧ opKey op ≠ k2) →
      [k1, k2].Sublist item.job_keys →
      [k1, k2].Sublist (runJobOps item ops).1.job_keys := by
  induction ops with
  | nil => intro item k1 k2 _ hs; exact hs
  | cons op rest ih =>
    intro item k1 k2 hops hs
    have hop := hops op (List.mem_cons_self _ _)
    have hrest := fun op2 h2 => hops op2 (List.mem_cons_of_mem _ h2)
    cases op with
    | add job =>
      simp only [runJobOps]
      apply ih _ _ _ hrest
      have hkeys : (item.add_job job).job_keys
          = if odContains item.jobs job.id then item.job_keys
            else item.job_keys ++ [job.id] := by
        unfold EventQueueItem.add_job EventQueueItem.job_keys
        exact odKeys_odInsert _ _ _
      rw [hkeys]
      split
      · exact hs
      · exact hs.trans (List.sublist_append_left _ _)
    | remove job_id =>
      cases hrem : item.remove_job job_id with
      | ok item2 =>
        have h2 : item2.job_keys
            = item.job_keys.filter (fun k => k != job_id) := by
          unfold EventQueueItem.remove_job at hrem
          by_cases hc : odContains item.jobs job_id = true
          · rw [if_pos hc] at hrem
            simp only [Except.ok.injEq] at hrem
            subst hrem
            exact odKeys_odErase _ _
          · rw [if_neg hc] at hrem
            simp at hrem
        simp only [runJobOps, hrem]
        apply ih _ _ _ hrest
        rw [h2]
        have hf : [k1, k2].filter (fun k => k != job_id) = [k1, k2] := by
          have hb1 : (k1 != job_id) = true := by
            simp only [bne_iff_ne, ne_eq]
            exact Ne.symm hop.1
          have hb2 : (k2 != job_id) = true := by
            simp only [bne_iff_ne, ne_eq]
            exact Ne.symm hop.2
          simp [List.filter_cons, hb1, hb2]
        have hfil := List.Sublist.filter (fun k => k != job_id) hs
        rw [hf] at hfil
        exact hfil
      | error e =>
        simp only [runJobOps, hrem]
        exact hs

theorem odKeys_filter_of_not_contains {α : Type} (m : List (String × α))
    (k : String) (h : odContains m k = false) :
    (odKeys m).filter (fun x => x != k) = odKeys m := by
  apply List.filter_eq_self.mpr
  intro x hx
  simp only [bne_iff_ne, ne_eq]
  intro hxk
  subst hxk
  rw [odContains_eq_keys_contains] at h
  have hx2 := List.elem_eq_true_of_mem hx
  rw [show (odKeys m).elem x = (odKeys m).contains x from rfl, h] at hx2
  exact Bool.noConfusion hx2

theorem add_event_items_eq (q : EventQueue) (e : Event) :
    (q.add_event e).1.items
      = if odContains q.items e.id then q.items
        else odInsert q.items e.id { event := e, jobs := [] } := by
  by_cases hc : odContains q.items e.id = true
  · simp [EventQueue.add_event, hc]
  · have hc2 : odContains q.items e.id = false := Bool.of_not_eq_true hc
    simp only [EventQueue.add_event, hc2, Bool.false_eq_true, if_false]
    rcases hS : EventQueue.store_item
        { q with items := odInsert q.items e.id { event := e, jobs := [] } }
        { event := e, jobs := [] } with ⟨zk, r⟩
    cases r <;> rfl

theorem add_event_item_keys (q : EventQueue) (e : Event) :
    (q.add_event e).1.item_keys = stepItemKeys q.item_keys (.add e) := by
  simp only [EventQueue.item_keys, stepItemKeys]
  rw [add_event_items_eq]
  by_cases hc : odContains q.items e.id = true
  · rw [if_pos hc]
    rw [odContains_eq_keys_contains] at hc
    rw [if_pos hc]
  · rw [if_neg hc, odKeys_odInsert, if_neg hc]
    rw [odContains_eq_keys_contains] at hc
    rw [if_neg hc]

theorem remove_item_item_keys (q : EventQueue) (item : EventQueueItem) :
    (q.remove_item item).1.item_keys = stepItemKeys q.item_keys (.remove item) := by
  by_cases hc : odContains q.items item.id = false
  · simp only [EventQueue.remove_item, hc, if_true]
    exact (odKeys_filter_of_not_contains q.items item.id hc).symm
  · have hc2 : odContains q.items item.id = true := by
      cases hb : odContains q.items item.id
      · exact absurd hb hc
      · rfl
    simp only [EventQueue.remove_item, hc2, Bool.true_eq_false, if_false]
    rcases hD : EventQueue.delete_stored_item
        { q with items := odErase q.items item.id } item.id with ⟨zk, r⟩
    exact odKeys_odErase q.items item.id

theorem runQueueOps_item_keys (qops : List QueueOp) :
    ∀ (q : EventQueue),
      (runQueueOps q qops).item_keys = qops.foldl stepItemKeys q.item_keys := by
  induction qops with
  | nil => intro q; rfl
  | cons op rest ih =>
    intro q
    cases op with
    | add e =>
      simp only [runQueueOps]
      rw [ih, add_event_item_keys]
      rfl
    | remove item =>
      simp only [runQueueOps]
      rw [ih, remove_item_item_keys]
      rfl

theorem sublist_foldl_stepItemKeys (qops : List QueueOp) :
    ∀ (acc : List String) (k1 k2 : String),
      (∀ op ∈ qops, qopKey op ≠ k1 ∧ qopKey op ≠ k2) →
      [k1, k2].Sublist acc →
      [k1, k2].Sublist (qops.foldl stepItemKeys acc) := by
  induction qops with
  | nil => intro acc k1 k2 _ hs; exact hs
  | cons op rest ih =>
    intro acc k1 k2 hops hs
    have hop := hops op (List.mem_cons_self _ _)
    have hrest := fun op2 h2 => hops op2 (List.mem_cons_of_mem _ h2)
    rw [List.foldl_cons]
    apply ih _ _ _ hrest
    cases op with
    | add e =>
      simp only [stepItemKeys]
      split
      · exact hs
      · exact hs.trans (List.sublist_append_left _ _)
    | remove item =>
      simp only [stepItemKeys]
      have hf : [k1, k2].filter (fun k => k != item.id) = [k1, k2] := by
        have hb1 : (k1 != item.id) = true := by
          simp only [bne_iff_ne, ne_eq]
          exact Ne.symm hop.1
        have hb2 : (k2 != item.id) = true := by
          simp only [bne_iff_ne, ne_eq]
          exact Ne.symm hop.2
        simp [List.filter_cons, hb1, hb2]
      have hfil := List.Sublist.filter (fun k => k != item.id) hs
      rw [hf] at hfil
      exact hfil

/-- C7 (amended): keys are ordered by their latest insertion, at both
levels. For job_keys, a fresh add appends the key, an add of a present
key keeps its position, and a key removed and later re-added takes its
position from the re-insertion; removing or re-adding unrelated keys
never changes the relative order of the remaining keys. For item_keys,
every add_event or remove_item call (counting the state each call leaves
behind even when it raises) steps the key list the same way: a fresh
identifier is appended, a duplicate add changes nothing, a removal drops
the identifier; and operations on unrelated identifiers never change the
relative order of the remaining identifiers. -/
theorem job_keys_insertion_order :
    (∀ (e : Event) (ops : List JobOp),
        (runJobOps { event := e, jobs := [] } ops).2 = .ok () →
        (runJobOps { event := e, jobs := [] } ops).1.job_keys
          = episodeOrder ops)
    ∧ (∀ (item : EventQueueItem) (ops : List JobOp) (k1 k2 : String),
        (∀ op ∈ ops, opKey op ≠ k1 ∧ opKey op ≠ k2) →
        [k1, k2].Sublist item.job_keys →
        [k1, k2].Sublist (runJobOps item ops).1.job_keys)
    ∧ (∀ (q : EventQueue) (qops : List QueueOp),
        (runQueueOps q qops).item_keys = qops.foldl stepItemKeys q.item_keys)
    ∧ (∀ (q : EventQueue) (qops : List QueueOp) (k1 k2 : String),
        (∀ op ∈ qops, qopKey op ≠ k1 ∧ qopKey op ≠ k2) →
        [k1, k2].Sublist q.item_keys →
        [k1, k2].Sublist (runQueueOps q qops).item_keys) := by
  refine ⟨?_, ?_, ?_, ?_⟩
  · intro e ops hok
    rw [runJobOps_keys ops _ hok]
    rfl
  · intro item ops k1 k2 h hs
    exact sublist_runJobOps ops item k1 k2 h hs
  · intro q qops
    exact runQueueOps_item_keys qops q
  · intro q qops k1 k2 h hs
    rw [runQueueOps_item_keys]
    exact sublist_foldl_stepItemKeys qops q.item_keys k1 k2 h hs

/-- Counterexample for C7 as frozen: after add a, add b, remove a, add a,
the sequence succeeds and job_keys is b then a, while the surviving
identifiers in the order they were FIRST inserted are a then b; the two
orders differ. -/
theorem job_keys_readd_counterexample :
    (runJobOps itemBare reAddOps).2 = .ok ()
    ∧ (runJobOps itemBare reAddOps).1.job_keys = ["b", "a"]
    ∧ firstInsertOrder reAddOps ((runJobOps itemBare reAddOps).1.job_keys)
        = ["a", "b"]
    ∧ ¬ (runJobOps itemBare reAddOps).1.job_keys
        = firstInsertOrder reAddOps
            ((runJobOps itemBare reAddOps).1.job_keys) := by
  decide

theorem store_error_kinds (zk : ZooKeeper) (path : String) (v : ZkValue)
    (e : EvaError) (h : (zk.store path v).2 = .error e) :
    e = .ZooKeeperDataTooLargeException ∨ e = .ZooKeeperError := by
  unfold ZooKeeper.store at h
  split at h
  · simp at h
    exact .inr h.symm
  · split at h
    · simp at h
      exact .inl h.symm
    · simp at h

theorem ensure_error_kind (zk : ZooKeeper) (path : String) (e : EvaError)
    (h : (zk.ensure_path path).2 = .error e) : e = .ZooKeeperError := by
  unfold ZooKeeper.ensure_path at h
  split at h
  · simp at h
    exact h.symm
  · simp at h

theorem store_serialized_error_kinds (q : EventQueue) (path : String)
    (data : ZkValue) (e : EvaError)
    (h : (q.store_serialized_data path data).2 = .error e) :
    e = .ZooKeeperDataTooLargeException ∨ e = .ZooKeeperError := by
  unfold EventQueue.store_serialized_data at h
  rcases hS : q.zookeeper.store path data with ⟨zk, r⟩
  rw [hS] at h
  cases r with
  | error e2 =>
    rw [tryStep_error] at h
    have hk := store_error_kinds q.zookeeper path data e2 (by rw [hS])
    simp at h
    subst h
    exact hk
  | ok _ =>
    rw [tryStep_ok] at h
    simp at h

theorem storeJobRecords_error_kinds (l : List (String × SerializedJob)) :
    ∀ (zk : ZooKeeper) (jp : String) (e : EvaError),
      (storeJobRecords zk jp l).2 = .error e →
      e = .ZooKeeperDataTooLargeException ∨ e = .ZooKeeperError := by
  induction l with
  | nil =>
    intro zk jp e h
    simp [storeJobRecords] at h
  | cons p rest ih =>
    intro zk jp e h
    obtain ⟨key, j⟩ := p
    simp only [storeJobRecords] at h
    rcases h1 : zk.ensure_path (pathJoin jp key) with ⟨zk1, r1⟩
    rw [h1] at h
    cases r1 with
    | error e1 =>
      rw [tryStep_error] at h
      simp at h
      subst h
      exact .inr (ensure_error_kind _ _ _ (by rw [h1]))
    | ok _ =>
      rw [tryStep_ok] at h
      rcases h2 : zk1.store (pathJoin (pathJoin jp key) "adapter")
          (.str j.adapter) with ⟨zk2, r2⟩
      rw [h2] at h
      cases r2 with
      | error e2 =>
        rw [tryStep_error] at h
        simp at h
        subst h
        exact store_error_kinds _ _ _ _ (by rw [h2])
      | ok _ =>
        rw [tryStep_ok] at h
        rcases h3 : zk2.store (pathJoin (pathJoin jp key) "status")
            (.str j.status) with ⟨zk3, r3⟩
        rw [h3] at h
        cases r3 with
        | error e3 =>
          rw [tryStep_error] at h
          simp at h
          subst h
          exact store_error_kinds _ _ _ _ (by rw [h3])
        | ok _ =>
          rw [tryStep_ok] at h
          exact ih zk3 jp e h

theorem store_item_error_kinds (q : EventQueue) (item : EventQueueItem)
    (hmem : odContains q.items item.id = true) (e : EvaError)
    (h : (q.store_item item).2 = .error e) :
    e = .ZooKeeperDataTooLargeException ∨ e = .ZooKeeperError := by
  unfold EventQueue.store_item at h
  rw [if_neg (by simp [hmem])] at h
  rcases h1 : q.zookeeper.ensure_path (pathJoin q.zk_base_path item.id)
    with ⟨zk1, r1⟩
  rw [h1] at h
  cases r1 with
  | error e1 =>
    rw [tryStep_error] at h
    simp at h
    subst h
    exact .inr (ensure_error_kind _ _ _ (by rw [h1]))
  | ok _ =>
    rw [tryStep_ok] at h
    rcases h2 : zk1.store (pathJoin (pathJoin q.zk_base_path item.id) "message")
        (.str item.serialize.message) with ⟨zk2, r2⟩
    rw [h2] at h
    cases r2 with
    | error e2 =>
      rw [tryStep_error] at h
      simp at h
      subst h
      exact store_error_kinds _ _ _ _ (by rw [h2])
    | ok _ =>
      rw [tryStep_ok] at h
      rcases h3 : zk2.store (pathJoin (pathJoin q.zk_base_path item.id) "jobs")
          (.list item.serialize.job_keys) with ⟨zk3, r3⟩
      rw [h3] at h
      cases r3 with
      | error e3 =>
        rw [tryStep_error] at h
        simp at h
        subst h
        exact store_error_kinds _ _ _ _ (by rw [h3])
      | ok _ =>
        rw [tryStep_ok] at h
        rcases h4 : storeJobRecords zk3
            (pathJoin (pathJoin q.zk_base_path item.id) "jobs")
            item.serialize.jobs with ⟨zk4, r4⟩
        rw [h4] at h
        cases r4 with
        | error e4 =>
          rw [tryStep_error] at h
          simp at h
          subst h
          exact storeJobRecords_error_kinds _ _ _ _ (by rw [h4])
        | ok _ =>
          rw [tryStep_ok] at h
          exact store_serialized_error_kinds _ _ _ _ h

/-- C8: when the identifier is fresh and add_event fails, the failure is a
store failure (payload too large or the generic store error), it is the
value returned to the caller, and the in-memory insertion is not rolled
back: the item mapping equals the old mapping with the new item appended,
so the identifier is present afterwards. -/
theorem add_event_failure_not_rolled_back (q : EventQueue) (e : Event)
    (err : EvaError) (hfresh : odContains q.items e.id = false)
    (hfail : (q.add_event e).2 = .error err) :
    (err = .ZooKeeperDataTooLargeException ∨ err = .ZooKeeperError)
    ∧ (q.add_event e).1.items
        = odInsert q.items e.id { event := e, jobs := [] }
    ∧ odContains (q.add_event e).1.items e.id = true := by
  have hne : ¬ odContains q.items e.id = true := by simp [hfresh]
  simp only [EventQueue.add_event] at hfail ⊢
  rw [if_neg hne] at hfail ⊢
  rcases hS : EventQueue.store_item
      { q with items := odInsert q.items e.id { event := e, jobs := [] } }
      { event := e, jobs := [] } with ⟨zk, r⟩
  rw [hS] at hfail
  cases r with
  | error e2 =>
    simp at hfail
    subst hfail
    refine ⟨?_, rfl, ?_⟩
    · exact store_item_error_kinds _ _ (odContains_odInsert_self _ _ _) _
        (by rw [hS])
    · exact odContains_odInsert_self _ _ _
  | ok _ => simp at hfail

/-- Witness for C8: against the zero-capacity store the message write of
add_event fails with the payload-too-large error, yet the identifier is in
the item mapping after the call. -/
theorem add_event_failure_not_rolled_back_case :
    (EvaError.ZooKeeperDataTooLargeException
        = EvaError.ZooKeeperDataTooLargeException
      ∨ EvaError.ZooKeeperDataTooLargeException = EvaError.ZooKeeperError)
    ∧ (queueSmall.add_event eventOne).1.items
        = odInsert queueSmall.items "e1" { event := eventOne, jobs := [] }
    ∧ odContains (queueSmall.add_event eventOne).1.items "e1" = true :=
  add_event_failure_not_rolled_back queueSmall eventOne
    .ZooKeeperDataTooLargeException (by decide) (by decide)

/-- Witness for C6: a two-job item serializes to the exact records of the
specification example. -/
theorem serialize_matches_shape_case :
    EventQueueItem.serialize
      { event := { id := "e9", message := "M" }
        jobs := [("j1", { id := "j1", status := "queued"
                          adapter := { config_id := "A1" }
                          started := false, finished := false, failed := false }),
                 ("j2", { id := "j2", status := "running"
                          adapter := { config_id := "A2" }
                          started := false, finished := false, failed := false })] } =
      { message := "M"
        job_keys := ["j1", "j2"]
        jobs := [("j1", { status := "queued", adapter := "A1" }),
                 ("j2", { status := "running", adapter := "A2" })] } :=
  (serialize_matches_shape _ (by decide)).trans (by decide)

end EVA
